import Mathlib

/-!
Shallow embedding of the repository-sustainability analysis pipeline
(`technical_sustainability.py`) and proofs about the behaviour of its
analyzers.  Filesystem trees are modelled explicitly; external facilities
(the regular-expression engine used for the pattern catalogs, the JSON
parser of the standard library) are modelled as function parameters where
an analyzer merely forwards to them, and implemented concretely where a
property depends on their behaviour.
-/

namespace TechSustain

/-- A repository working tree.  Files are `(name, content?)` where the
content is `none` when reading the file raises (the analyzers catch and
skip such files); directories are `(name, subtree)`. -/
inductive FileTree where
  | node : List (String × Option String) → List (String × FileTree) → FileTree
deriving Inhabited

def FileTree.files : FileTree → List (String × Option String)
  | .node fs _ => fs

def FileTree.dirs : FileTree → List (String × FileTree)
  | .node _ ds => ds

/-- The directory names pruned by `get_code_files` (its default
`exclude_dirs` argument). -/
def excludeDirs : List String :=
  ["node_modules", ".git", "vendor", "__pycache__", "build", "dist", "venv",
   "env", ".venv"]

/-- The extension allow-list of `get_code_files` (`code_extensions`). -/
def codeExtensions : List String :=
  [".py", ".js", ".jsx", ".ts", ".tsx", ".java", ".cs", ".go", ".rb", ".php",
   ".cpp", ".c", ".h", ".swift", ".kt", ".rs"]

/-- Python's `str.endswith`: the argument is a suffix of the string. -/
def strEndsWith (s suffix : String) : Bool :=
  suffix.toList.isSuffixOf s.toList

/-- Implements `any(filename.endswith(ext) for ext in code_extensions)`. -/
def isCodeFileName (name : String) : Bool :=
  codeExtensions.any (fun ext => strEndsWith name ext)

mutual

/-- Implements `get_code_files`: the `os.walk` traversal with
`dirs[:] = [d for d in dirs if d not in exclude_dirs]` pruning (an
excluded directory is removed before `os.walk` descends into it) and the
extension filter on file names.  A returned path is represented relative
to the repository root as `(directory segments, file name)`. -/
def getCodeFiles : FileTree → List (List String × String)
  | .node fs ds =>
      (fs.filter (fun f => isCodeFileName f.1)).map (fun f => ([], f.1))
        ++ getCodeFilesD ds

def getCodeFilesD : List (String × FileTree) → List (List String × String)
  | [] => []
  | (dname, t) :: rest =>
      (if dname ∈ excludeDirs then []
       else (getCodeFiles t).map (fun q => (dname :: q.1, q.2)))
        ++ getCodeFilesD rest

end

/-- No name on the exclude-list passes the extension filter. -/
theorem excluded_not_code : ∀ e ∈ excludeDirs, isCodeFileName e = false := by
  decide

mutual

theorem getCodeFiles_ok (t : FileTree) (q : List String × String)
    (hq : q ∈ getCodeFiles t) :
    (∀ s ∈ q.1, s ∉ excludeDirs) ∧ q.2 ∉ excludeDirs ∧
      isCodeFileName q.2 = true := by
  match t with
  | .node fs ds =>
    rw [getCodeFiles] at hq
    rcases List.mem_append.mp hq with h | h
    · rcases List.mem_map.mp h with ⟨f, hf, rfl⟩
      have hcode : isCodeFileName f.1 = true := (List.mem_filter.mp hf).2
      refine ⟨by simp, ?_, hcode⟩
      intro hmem
      have := excluded_not_code f.1 hmem
      simp [this] at hcode
    · exact getCodeFilesD_ok ds q h

theorem getCodeFilesD_ok (ds : List (String × FileTree))
    (q : List String × String) (hq : q ∈ getCodeFilesD ds) :
    (∀ s ∈ q.1, s ∉ excludeDirs) ∧ q.2 ∉ excludeDirs ∧
      isCodeFileName q.2 = true := by
  match ds with
  | [] => simp [getCodeFilesD] at hq
  | (dname, t) :: rest =>
    rw [getCodeFilesD] at hq
    rcases List.mem_append.mp hq with h | h
    · by_cases hd : dname ∈ excludeDirs
      · simp [hd] at h
      · simp only [if_neg hd] at h
        rcases List.mem_map.mp h with ⟨p, hp, rfl⟩
        obtain ⟨h1, h2, h3⟩ := getCodeFiles_ok t p hp
        refine ⟨?_, h2, h3⟩
        intro s hs
        rcases List.mem_cons.mp hs with rfl | hs
        · exact hd
        · exact h1 s hs
    · exact getCodeFilesD_ok rest q h

end

/-- C3: every path returned by `get_code_files` has no excluded directory
name as a path segment (neither among its directory segments nor as its
file name — an excluded directory's subtree is pruned before descent),
and its file name ends with one of the allowed source extensions. -/
theorem get_code_files_excludes_and_extensions (t : FileTree)
    (q : List String × String) (hq : q ∈ getCodeFiles t) :
    (∀ seg ∈ q.1 ++ [q.2], seg ∉ excludeDirs) ∧
      ∃ ext ∈ codeExtensions, strEndsWith q.2 ext = true := by
  obtain ⟨h1, h2, h3⟩ := getCodeFiles_ok t q hq
  constructor
  · intro seg hseg
    rcases List.mem_append.mp hseg with h | h
    · exact h1 seg h
    · rcases List.mem_singleton.mp h with rfl
      exact h2
  · simpa [isCodeFileName, List.any_eq_true] using h3

/-- A small concrete tree: one excluded directory containing a source
file, one ordinary source directory, a non-source file at the root. -/
def c3Tree : FileTree :=
  .node [("notes.txt", some "x"), ("main.py", some "print")]
    [("node_modules", .node [("dep.js", some "j")] []),
     ("src", .node [("util.rb", some "r")] [])]

/-- Witness for C3 at a concrete tree and returned path. -/
theorem get_code_files_excludes_and_extensions_witness :
    (∀ seg ∈ (["src"] : List String) ++ ["util.rb"], seg ∉ excludeDirs) ∧
      ∃ ext ∈ codeExtensions, strEndsWith "util.rb" ext = true :=
  get_code_files_excludes_and_extensions c3Tree (["src"], "util.rb")
    (by simp +decide [getCodeFiles, getCodeFilesD, c3Tree, isCodeFileName,
          strEndsWith, excludeDirs, codeExtensions])

/-! ## Pattern catalogs (`SUSTAINABLE_PATTERNS`, `UNSUSTAINABLE_PATTERNS`,
`ENVIRONMENTAL_INDICATORS`, `SOCIAL_INDICATORS`)

The regular-expression source strings are carried verbatim as data; the
regular-expression engine itself (`re.findall`) is modelled as a function
parameter `f : pattern → content → number of matches` wherever the
analyzer consumes these catalogs. -/

def SUSTAINABLE_PATTERNS : List (String × List String) :=
  [("documentation",
    ["\"\"\"[\\s\\S]*?\"\"\"",
     "/\\*\\*[\\s\\S]*?\\*/",
     "/// <summary>[\\s\\S]*?</summary>",
     "#\\s*@param",
     "#\\s*@return"]),
   ("testing",
    ["import\\s+[\x27\"]testing[\x27\"]",
     "import\\s+[\x27\"]pytest[\x27\"]",
     "import\\s+[\x27\"]unittest[\x27\"]",
     "@Test",
     "test\\w*\\([^)]*\\)\\s*\x7b",
     "assert\\w*\\(",
     "expect\\(",
     "mock\\w*\\("]),
   ("modularity",
    ["import\\s+",
     "from\\s+[\\w.]+\\s+import",
     "require\\([\x27\"]",
     "export\\s+",
     "class\\s+\\w+",
     "interface\\s+\\w+",
     "function\\s+\\w+",
     "def\\s+\\w+"]),
   ("error_handling",
    ["try\\s*\x7b",
     "try:",
     "catch\\s*\\(",
     "except",
     "finally",
     "throw\\s+new\\s+\\w+",
     "raise\\s+",
     "error\\w*\\s*=",
     "log\\w*\\s*\\(\\s*[\x27\"]error",
     "console\\.error"]),
   ("config_management",
    ["\\.env",
     "config\\.",
     "process\\.env",
     "os\\.environ",
     "settings\\.",
     "constants\\.",
     "getenv\\("]),
   ("adaptability",
    ["interface\\s+\\w+",
     "abstract\\s+class",
     "extends\\s+\\w+",
     "implements\\s+\\w+",
     "@Override",
     "super\\(",
     "factory\\."]),
   ("security",
    ["sanitize", "validate", "escape", "authenticate", "authorize",
     "encrypt", "decrypt", "hash", "token", "permission"]),
   ("scalability",
    ["cache", "pool", "queue", "async", "await", "parallel", "concurrent",
     "thread", "worker"])]

def UNSUSTAINABLE_PATTERNS : List (String × List String) :=
  [("code_smells",
    ["TODO", "FIXME", "HACK", "XXX", "WTF", "NOSONAR", "CHECKSTYLE:OFF"]),
   ("hard_coding",
    ["API_KEY\\s*=\\s*[\x27\"][^\x27\"]+[\x27\"]",
     "password\\s*=\\s*[\x27\"][^\x27\"]+[\x27\"]",
     "SECRET\\s*=\\s*[\x27\"][^\x27\"]+[\x27\"]",
     "http[s]?://[^\\s<>\"\\\x27]+",
     "[0-9]\x7b1,3\x7d\\.[0-9]\x7b1,3\x7d\\.[0-9]\x7b1,3\x7d\\.[0-9]\x7b1,3\x7d"]),
   ("long_methods",
    ["function\\s+\\w+\\([^)]*\\)\\s*\x7b[\\s\\S]\x7b1000,\x7d\x7d",
     "def\\s+\\w+\\([^)]*\\)[\\s\\S]\x7b1000,\x7dreturn",
     "public\\s+\\w+\\s+\\w+\\([^)]*\\)\\s*\x7b[\\s\\S]\x7b1000,\x7d\x7d"]),
   ("deep_nesting",
    ["if\\s*\\([^)]+\\)\\s*\x7b\\s*if\\s*\\([^)]+\\)\\s*\x7b\\s*if",
     "for\\s*\\([^)]+\\)\\s*\x7b\\s*for\\s*\\([^)]+\\)\\s*\x7b\\s*for",
     "while\\s*\\([^)]+\\)\\s*\x7b\\s*while\\s*\\([^)]+\\)\\s*\x7b\\s*while"]),
   ("large_classes",
    ["class\\s+\\w+[^\x7b]*\x7b[\\s\\S]\x7b3000,\x7d\x7d"]),
   ("naming_issues",
    ["\\b[a-z]\x7b1,2\x7d\\b",
     "\\b[A-Z0-9_]+\\b"]),
   ("commented_code",
    ["//\\s*[a-zA-Z0-9]+\\s*\\([^)]*\\)",
     "//\\s*if\\s*\\(",
     "//\\s*for\\s*\\(",
     "#\\s*[a-zA-Z0-9]+\\s*\\([^)]*\\)"])]

def ENVIRONMENTAL_INDICATORS : List (String × List String) :=
  [("high_computation",
    ["train\\(", "fit\\(", "\\.cuda", "gpu", "tensorflow", "torch",
     "while\\s*\\(\\s*true"]),
   ("resource_efficient",
    ["yield", "streaming", "lazy", "throttle", "debounce"]),
   ("energy_awareness",
    ["power", "battery", "energy", "sleep"])]

def SOCIAL_INDICATORS : List (String × List String) :=
  [("inclusive_design",
    ["a11y", "accessibility", "aria-", "alt=", "i18n", "l10n"]),
   ("privacy_focused",
    ["gdpr", "consent", "privacy", "anonymize", "pseudonymize"]),
   ("ethical_considerations",
    ["ethic", "bias", "fairness", "diversity", "inclusion"])]

/-! ## Character-list implementations of the Python string operations
used by the analyzers (`str.split('\n')`, `str.lower`, `in`, …). -/

/-- Python's `\s` character class (ASCII part). -/
def isPySpace (c : Char) : Bool :=
  c == ' ' || c == '\t' || c == '\n' || c == '\r' || c == '\x0b' || c == '\x0c'

/-- Python's `str.split('\n')`: splitting an empty string gives one empty part. -/
def pyLines : List Char → List (List Char)
  | [] => [[]]
  | '\n' :: rest => [] :: pyLines rest
  | c :: rest =>
      match pyLines rest with
      | l :: ls => (c :: l) :: ls
      | [] => [[c]]

/-- Python's `sub in s` substring test. -/
def pyContainsList (sub : List Char) : List Char → Bool
  | [] => sub.isEmpty
  | c :: rest => sub.isPrefixOf (c :: rest) || pyContainsList sub rest

/-- ASCII case folding (`str.lower` on the ASCII range). -/
def asciiLower (c : Char) : Char :=
  if 65 ≤ c.toNat ∧ c.toNat ≤ 90 then Char.ofNat (c.toNat + 32) else c

def pyLower (cs : List Char) : List Char := cs.map asciiLower

/-- Python's `str.strip()`: drop whitespace from both ends. -/
def pyStrip (cs : List Char) : List Char :=
  ((cs.dropWhile isPySpace).reverse.dropWhile isPySpace).reverse

/-! ## Pattern Analyzer (`analyze_code_patterns`) -/

/-- One input file of `analyze_code_patterns`: its path, the text obtained
by reading it (`none` when the read raises — the analyzer catches, logs
and skips such a file), and its on-disk size (`os.path.getsize`). -/
structure FInput where
  path : String
  content : Option String
  size : Nat

/-- A line matching one of the five comment-prefix patterns
`^\s*#`, `^\s*//`, `^\s*/\*`, `^\s*\*`, `^\s*\*/` (anchored `re.match`:
optional leading whitespace, then the literal prefix). -/
def isCommentLine (line : List Char) : Bool :=
  let rest := line.dropWhile isPySpace
  ["#", "//", "/*", "*", "*/"].any (fun p => p.toList.isPrefixOf rest)

/-- Python's `os.path.splitext(...)[1]`: the extension of the final path component
(leading dots of the base name do not start an extension). -/
def splitExtName (path : String) : String :=
  let base := ((path.splitOn "/").getLastD "").toList
  let rest := base.drop (base.takeWhile (· == '.')).length
  let revTail := rest.reverse.takeWhile (· != '.')
  if revTail.length = rest.length then "" else String.mk ('.' :: revTail.reverse)

/-- A `Counter` update: bump the key's count, inserting it at first sight. -/
def histAdd (h : List (String × Nat)) (k : String) : List (String × Nat) :=
  if h.any (fun e => e.1 == k) then
    h.map (fun e => if e.1 == k then (e.1, e.2 + 1) else e)
  else h ++ [(k, 1)]

def histogram (ks : List String) : List (String × Nat) := ks.foldl histAdd []

/-- Matches of one sub-category over one file: `re.findall` is the
parameter `f` (pattern, content ↦ number of matches), summed over the
sub-category's pattern list. -/
def subcatTotal (f : String → String → Nat) (pats : List String)
    (content : String) : Nat :=
  (pats.map (fun p => f p content)).sum

/-- Per-sub-category match totals of one catalog, accumulated over all
successfully read file contents (the nested
`for category, patterns in CATALOG.items(): for pattern in patterns:
results[...][category] += len(re.findall(pattern, content))` loops,
summed over the file loop). -/
def catCounts (f : String → String → Nat)
    (catalog : List (String × List String)) (contents : List String) :
    List (String × Nat) :=
  catalog.map (fun sp =>
    (sp.1, (contents.map (fun c => subcatTotal f sp.2 c)).sum))

def functionPattern : String := "(function\\s+\\w+|def\\s+\\w+)"

def classPattern : String := "(class\\s+\\w+)"

/-- The result dictionary of `analyze_code_patterns`. -/
structure CodeAnalysis where
  sustainable : List (String × Nat)
  unsustainable : List (String × Nat)
  environmental : List (String × Nat)
  social : List (String × Nat)
  total_lines : Nat
  file_count : Nat
  file_types : List (String × Nat)
  avg_file_size : ℚ
  function_count : Nat
  class_count : Nat
  comment_ratio : ℚ

/-- Implements `analyze_code_patterns(files)`, with `re.findall` abstracted as `f`.
`file_count` is set to `len(files)` up front; every other accumulator
only sees the files whose read succeeded (a read error is caught and the
file skipped). -/
def analyzeCodePatterns (f : String → String → Nat) (files : List FInput) :
    CodeAnalysis :=
  let contents := files.filterMap FInput.content
  let total_lines := (contents.map (fun c => (pyLines c.toList).length)).sum
  let total_comment :=
    (contents.map (fun c => ((pyLines c.toList).filter isCommentLine).length)).sum
  let total_size :=
    (files.filterMap (fun fi => fi.content.map (fun _ => fi.size))).sum
  { sustainable := catCounts f SUSTAINABLE_PATTERNS contents
  , unsustainable := catCounts f UNSUSTAINABLE_PATTERNS contents
  , environmental := catCounts f ENVIRONMENTAL_INDICATORS contents
  , social := catCounts f SOCIAL_INDICATORS contents
  , total_lines := total_lines
  , file_count := files.length
  , file_types :=
      histogram (files.filterMap
        (fun fi => fi.content.map (fun _ => splitExtName fi.path)))
  , avg_file_size :=
      if 0 < files.length then (total_size : ℚ) / files.length else 0
  , function_count := (contents.map (fun c => f functionPattern c)).sum
  , class_count := (contents.map (fun c => f classPattern c)).sum
  , comment_ratio :=
      if 0 < total_lines then (total_comment : ℚ) / total_lines else 0 }

/-- The four pattern catalogs, indexed. -/
def catalogOf : Fin 4 → List (String × List String)
  | ⟨0, _⟩ => SUSTAINABLE_PATTERNS
  | ⟨1, _⟩ => UNSUSTAINABLE_PATTERNS
  | ⟨2, _⟩ => ENVIRONMENTAL_INDICATORS
  | ⟨3, _⟩ => SOCIAL_INDICATORS
  | ⟨n + 4, h⟩ => absurd h (by omega)

/-- The count field of the result corresponding to each catalog. -/
def countsField (ca : CodeAnalysis) : Fin 4 → List (String × Nat)
  | ⟨0, _⟩ => ca.sustainable
  | ⟨1, _⟩ => ca.unsustainable
  | ⟨2, _⟩ => ca.environmental
  | ⟨3, _⟩ => ca.social
  | ⟨n + 4, h⟩ => absurd h (by omega)

theorem countsField_analyze (f : String → String → Nat) (files : List FInput)
    (i : Fin 4) :
    countsField (analyzeCodePatterns f files) i
      = catCounts f (catalogOf i) (files.filterMap FInput.content) := by
  fin_cases i <;> rfl

theorem catCounts_append_single (f : String → String → Nat)
    (cat : List (String × List String)) (cs : List String) (c : String) :
    catCounts f cat (cs ++ [c])
      = cat.map (fun sp =>
          (sp.1, (cs.map (fun x => subcatTotal f sp.2 x)).sum
                   + subcatTotal f sp.2 c)) := by
  simp [catCounts]

/-- The sub-category names of each catalog are distinct. -/
theorem catalog_names_nodup :
    ∀ i : Fin 4, ((catalogOf i).map Prod.fst).Nodup := by decide

theorem eq_of_mem_of_fst_eq {l : List (String × List String)}
    (h : (l.map Prod.fst).Nodup) {a b : String × List String}
    (ha : a ∈ l) (hb : b ∈ l) (hfst : a.1 = b.1) : a = b :=
  List.inj_on_of_nodup_map h ha hb hfst

/-- C7: the Pattern Analyzer's per-sub-category counts are additive in the
file list: appending a readable file whose content matches no pattern of
any catalog leaves all four count fields unchanged, and appending a file
with exactly one match in sub-category `target` (and none anywhere else)
bumps exactly that sub-category's count by one. -/
theorem pattern_counts_monotonic (f : String → String → Nat)
    (files : List FInput) (p0 p1 : String) (n0 n1 : Nat) (c0 c1 : String)
    (i : Fin 4) (target : String × List String)
    (htarget : target ∈ catalogOf i)
    (h0 : ∀ j : Fin 4, ∀ sp ∈ catalogOf j, subcatTotal f sp.2 c0 = 0)
    (h1 : subcatTotal f target.2 c1 = 1)
    (hother : ∀ j : Fin 4, ∀ sp ∈ catalogOf j, ¬(j = i ∧ sp = target) →
      subcatTotal f sp.2 c1 = 0) :
    (∀ j : Fin 4,
      countsField (analyzeCodePatterns f (files ++ [⟨p0, some c0, n0⟩])) j
        = countsField (analyzeCodePatterns f files) j)
    ∧ countsField (analyzeCodePatterns f (files ++ [⟨p1, some c1, n1⟩])) i
        = (countsField (analyzeCodePatterns f files) i).map
            (fun e => if e.1 = target.1 then (e.1, e.2 + 1) else e)
    ∧ ∀ j : Fin 4, j ≠ i →
        countsField (analyzeCodePatterns f (files ++ [⟨p1, some c1, n1⟩])) j
          = countsField (analyzeCodePatterns f files) j := by
  have hfm : ∀ (p c : String) (n : Nat),
      (files ++ [FInput.mk p (some c) n]).filterMap FInput.content
        = files.filterMap FInput.content ++ [c] := by
    intro p c n
    simp [List.filterMap_append, FInput.content]
  refine ⟨?_, ?_, ?_⟩
  · intro j
    rw [countsField_analyze, countsField_analyze, hfm, catCounts_append_single]
    refine List.map_congr_left ?_
    intro sp hsp
    simp [h0 j sp hsp]
  · rw [countsField_analyze, countsField_analyze, hfm, catCounts_append_single,
      catCounts, List.map_map]
    refine List.map_congr_left ?_
    intro sp hsp
    by_cases hsp_target : sp = target
    · subst hsp_target
      simp [h1]
    · have hz := hother i sp hsp (by simp [hsp_target])
      have hne : sp.1 ≠ target.1 := fun hfst =>
        hsp_target (eq_of_mem_of_fst_eq (catalog_names_nodup i) hsp htarget hfst)
      simp [hz, Function.comp, hne]
  · intro j hj
    rw [countsField_analyze, countsField_analyze, hfm, catCounts_append_single]
    refine List.map_congr_left ?_
    intro sp hsp
    simp [hother j sp hsp (by simp [hj])]

/-- A concrete `re.findall` oracle: exactly one match of the pattern
`ethic` in the content `"E"`, nothing else anywhere. -/
def patOracle : String → String → Nat :=
  fun p c => if p = "ethic" ∧ c = "E" then 1 else 0

def ethicsEntry : String × List String :=
  ("ethical_considerations", ["ethic", "bias", "fairness", "diversity",
   "inclusion"])

/-- Witness for C7: appending one file with a single `ethic` match bumps
the `ethical_considerations` count of the social catalog by one. -/
theorem pattern_counts_monotonic_witness :
    countsField (analyzeCodePatterns patOracle ([] ++ [⟨"a.py", some "E", 1⟩])) 3
      = (countsField (analyzeCodePatterns patOracle []) 3).map
          (fun e => if e.1 = "ethical_considerations" then (e.1, e.2 + 1) else e) :=
  (pattern_counts_monotonic patOracle [] "z.py" "a.py" 0 1 "Z" "E" 3
    ethicsEntry (by decide) (by decide) (by decide) (by decide)).2.1

/-- C6 counterexample: a single file whose read fails is skipped (the
processed-file list is empty), yet `file_count` still counts it — the
returned `file_count` is the number of input files, not the number of
files processed. -/
theorem file_count_neq_processed_counterexample :
    (analyzeCodePatterns patOracle [⟨"bad.py", none, 7⟩]).file_count = 1
    ∧ (([⟨"bad.py", none, 7⟩] : List FInput).filterMap FInput.content).length = 0
    ∧ (analyzeCodePatterns patOracle [⟨"bad.py", none, 7⟩]).file_count
        ≠ (([⟨"bad.py", none, 7⟩] : List FInput).filterMap FInput.content).length := by
  refine ⟨rfl, rfl, ?_⟩
  decide

/-- C6 (amended): `file_count` equals the number of input files, skipped
files included; a file whose read fails is skipped without aborting the
batch — the line totals, the four pattern-count fields and the comment
ratio are as if the unreadable file were absent (it still enters
`file_count` and the `avg_file_size` denominator). -/
theorem file_count_and_skip_semantics (f : String → String → Nat)
    (files : List FInput) (p : String) (n : Nat) :
    (analyzeCodePatterns f files).file_count = files.length
    ∧ (analyzeCodePatterns f (files ++ [⟨p, none, n⟩])).file_count
        = files.length + 1
    ∧ (analyzeCodePatterns f (files ++ [⟨p, none, n⟩])).total_lines
        = (analyzeCodePatterns f files).total_lines
    ∧ (∀ j : Fin 4,
        countsField (analyzeCodePatterns f (files ++ [⟨p, none, n⟩])) j
          = countsField (analyzeCodePatterns f files) j)
    ∧ (analyzeCodePatterns f (files ++ [⟨p, none, n⟩])).comment_ratio
        = (analyzeCodePatterns f files).comment_ratio := by
  have hfm : (files ++ [FInput.mk p none n]).filterMap FInput.content
      = files.filterMap FInput.content := by
    simp [List.filterMap_append, FInput.content]
  refine ⟨rfl, by simp [analyzeCodePatterns], ?_, ?_, ?_⟩
  · simp only [analyzeCodePatterns, hfm]
  · intro j
    rw [countsField_analyze, countsField_analyze, hfm]
  · simp only [analyzeCodePatterns, hfm]

/-! ## Commit History Analyzer (`analyze_commit_history`) -/

/-- The result dictionary of `analyze_commit_history`.  Commit dates are
modelled as parsed day numbers; `avg_commit_size` is initialised to `0`
and never assigned by the source. -/
structure CommitData where
  total_commits : Nat
  commit_frequency : ℚ
  active_days : Nat
  contributors : Nat
  avg_commit_size : ℚ
  commit_message_quality : ℚ
  test_driven_commits : Nat

def convKeywords : List String :=
  ["feat", "fix", "docs", "style", "refactor", "test", "chore"]

/-- After `(` and at least one matched character: scan for `):` with every
intervening character matched by `.` (hence not a newline). -/
def parenTailAux : List Char → Bool
  | ')' :: ':' :: _ => true
  | c :: rest => c != '\n' && parenTailAux rest
  | [] => false

/-- The `(\(.+\))?:` part after a conventional-commit keyword, given the
characters following the `(`. -/
def parenTail : List Char → Bool
  | c :: rest => c != '\n' && parenTailAux rest
  | [] => false

/-- The pattern `^(feat|fix|docs|style|refactor|test|chore)(\(.+\))?:` via
`re.search` (the `^` anchors it to the start of the subject). -/
def convMessage (m : String) : Bool :=
  convKeywords.any (fun kw =>
    kw.toList.isPrefixOf m.toList &&
      (match m.toList.drop kw.toList.length with
       | ':' :: _ => true
       | '(' :: tail => parenTail tail
       | _ => false))

/-- The pattern `^[A-Z]`: the subject starts with an ASCII capital letter. -/
def startsUpperB (m : String) : Bool :=
  match m.toList with
  | c :: _ => 65 ≤ c.toNat && c.toNat ≤ 90
  | [] => false

/-- The pattern `.\x7b10,\x7d` via `re.search`: some newline-free run of at least ten
characters, i.e. some line of length at least ten. -/
def hasLongLine (m : String) : Bool :=
  (pyLines m.toList).any (fun l => 10 ≤ l.length)

/-- Implements `any(re.search(pattern, message) for pattern in good_message_patterns)`. -/
def goodMessage (m : String) : Bool :=
  convMessage m || startsUpperB m || hasLongLine m

/-- Implements `any('test' in f.lower() for f in files)` where `files` is the block of
touched paths split on newlines. -/
def filesMentionTest (fs : String) : Bool :=
  (pyLines fs.toList).any (fun f => pyContainsList "test".toList (pyLower f))

/-- Good-subject count over the `commit_logs` blocks, consumed two blocks
(message, touched files) at a time exactly as the
`for i in range(0, len(commit_logs), 2)` loop with its `i+1 < len`
guard (a trailing unpaired block is ignored). -/
def goodCount : List String → Nat
  | m :: _ :: rest => (if goodMessage m then 1 else 0) + goodCount rest
  | _ => 0

/-- Test-touching-commit count over the same paired blocks. -/
def testCommitCount : List String → Nat
  | _ :: fs :: rest => (if filesMentionTest fs then 1 else 0) + testCommitCount rest
  | _ => 0

/-- Computes `weeks = max(1, days_diff / 7)` with
`days_diff = (last_date - first_date).days + 1`, where `last_date` parses
`commit_dates[0]` and `first_date` parses `commit_dates[-1]`. -/
def commitWeeks (dates : List Int) : ℚ :=
  max 1 (((dates.headI - dates.getLastD 0 + 1 : Int) : ℚ) / 7)

/-- Implements `analyze_commit_history`, as a function of the parsed `git` query
results: the commit count, the per-commit dates (newest first, as day
numbers), the author e-mails, and the subject/file blocks of the
`--format=%s --name-only` log split on blank lines. -/
def analyzeCommitHistory (total : Nat) (dates : List Int)
    (emails : List String) (logs : List String) : CommitData :=
  { total_commits := total
  , commit_frequency :=
      if dates.isEmpty then 0 else (total : ℚ) / commitWeeks dates
  , active_days := dates.dedup.length
  , contributors := emails.dedup.length
  , avg_commit_size := 0
  , commit_message_quality :=
      if 0 < total then (goodCount logs : ℚ) / total else 0
  , test_driven_commits := if 0 < total then testCommitCount logs else 0 }

theorem getLastD_mem_self : ∀ (l : List Int) (d : Int), l ≠ [] →
    l.getLastD d ∈ l
  | [], _, h => absurd rfl h
  | [a], d, _ => by simp
  | a :: b :: t, d, _ => by
      have ih := getLastD_mem_self (b :: t) a (by simp)
      simp only [List.getLastD] at ih ⊢
      exact List.mem_cons_of_mem a ih

/-- C4: the commit-frequency denominator is floored at one week
(`weeks = max(1, days_diff / 7)`) for every commit-date list, so the
division never divides by zero; a history whose commit dates all fall on
one day has `days_diff = 0 + 1`, hence `weeks = 1` and
`commit_frequency = total_commits / 1`. -/
theorem commit_frequency_one_week_floor (total : Nat) (dates : List Int)
    (emails logs : List String) (d : Int)
    (hne : dates ≠ []) (hall : ∀ x ∈ dates, x = d) :
    (∀ ds : List Int, (1 : ℚ) ≤ commitWeeks ds)
    ∧ (analyzeCommitHistory total dates emails logs).commit_frequency
        = total := by
  refine ⟨fun ds => le_max_left _ _, ?_⟩
  have hhead : dates.headI = d := by
    cases dates with
    | nil => exact absurd rfl hne
    | cons a l => exact hall a (by simp)
  have hlast : dates.getLastD 0 = d :=
    hall _ (getLastD_mem_self dates 0 hne)
  have hweeks : commitWeeks dates = 1 := by
    rw [commitWeeks, hhead, hlast]
    have h7 : ((d - d + 1 : Int) : ℚ) / 7 ≤ 1 := by norm_num
    simpa using max_eq_left h7
  have hne' : dates.isEmpty = false := by
    cases dates with
    | nil => exact absurd rfl hne
    | cons a l => rfl
  simp [analyzeCommitHistory, hne', hweeks]

/-- Witness for C4: five commits all dated day 3 give frequency 5. -/
theorem commit_frequency_one_week_floor_witness :
    (analyzeCommitHistory 5 [3, 3] [] []).commit_frequency = 5 :=
  (commit_frequency_one_week_floor 5 [3, 3] [] [] 3 (by simp)
    (by intro x hx; simp only [List.mem_cons, List.mem_singleton,
      List.not_mem_nil, or_false] at hx; rcases hx with h | h <;> exact h)).2

/-- Each pair of log blocks contributes at most one good message:
`good_messages` never exceeds half the number of blocks. -/
theorem goodCount_le_half : ∀ logs : List String,
    goodCount logs ≤ logs.length / 2
  | [] => by simp [goodCount]
  | [m] => by simp [goodCount]
  | m :: fs :: rest => by
      have ih := goodCount_le_half rest
      simp only [goodCount, List.length_cons]
      split <;> omega

/-! ## Test Coverage Analyzer (`check_test_coverage`) -/

def testDirs : List String :=
  ["tests", "test", "__tests__", "spec", "unit_tests", "integration_tests",
   "e2e"]

def testPatterns : List String :=
  ["*_test.py", "*_spec.js", "test_*.py", "*Test.java", "*Spec.js",
   "*_test.go", "*_test.rb"]

/-- The (shorter) extension list `check_test_coverage` uses to skip
non-code files. -/
def covExtensions : List String :=
  [".py", ".js", ".jsx", ".ts", ".tsx", ".java", ".cs", ".go", ".rb", ".php"]

def isCovExtName (n : String) : Bool :=
  covExtensions.any (fun e => strEndsWith n e)

/-- Computes `pattern.replace('*', '.*')`. -/
def pyReplaceStar (cs : List Char) : List Char :=
  cs.flatMap (fun c => if c == '*' then ['.', '*'] else [c])

/-- Token of the tiny regular-expression dialect generated by the glob
patterns after `*` → `.*` replacement: a literal character, `.` (any
character but newline), or `.*`. -/
inductive RegTok where
  | lit : Char → RegTok
  | anyChar : RegTok
  | starAny : RegTok

def compileTok : List Char → List RegTok
  | [] => []
  | '.' :: '*' :: rest => .starAny :: compileTok rest
  | '.' :: rest => .anyChar :: compileTok rest
  | c :: rest => .lit c :: compileTok rest

/-- The suffixes of `cs` reachable by consuming only non-newline
characters (the strings `.*` may leave behind). -/
def nlSuffixes : List Char → List (List Char)
  | [] => [[]]
  | x :: rest => (x :: rest) :: (if x != '\n' then nlSuffixes rest else [])

/-- The `re.match` semantics for the compiled tokens: the pattern matches some
prefix of the character list (the end is not anchored). -/
def regMatch : List RegTok → List Char → Bool
  | [], _ => true
  | .lit _ :: _, [] => false
  | .lit c :: ps, x :: xs => c == x && regMatch ps xs
  | .anyChar :: _, [] => false
  | .anyChar :: ps, x :: xs => x != '\n' && regMatch ps xs
  | .starAny :: ps, xs => (nlSuffixes xs).any (fun t => regMatch ps t)

/-- Implements `any(re.match(pattern.replace('*', '.*'), file) for pattern in
test_patterns)`. -/
def isTestFileName (n : String) : Bool :=
  testPatterns.any (fun pat =>
    regMatch (compileTok (pyReplaceStar pat.toList)) n.toList)

/-- A file met by the coverage walk: its directory segments relative to
the repository root, its name, and its content (`none` if reading it
raises). -/
abbrev TCFile := List String × String × Option String

def pushDir (d : String) (x : TCFile) : TCFile := (d :: x.1, x.2)

mutual

/-- The `os.walk` loop of `check_test_coverage`: NO directory exclusion
is applied; `in_test_dir` holds when some segment of the current root is
a conventional test-directory name; every file with one of the analyzer's
extensions is appended to the test list (when `in_test_dir` or its name
matches a test-naming pattern) or else to the code list. -/
def testCovWalk (inTest : Bool) : FileTree → List TCFile × List TCFile
  | .node fs ds =>
      let here := fs.filter (fun f => isCovExtName f.1)
      let ts0 := (here.filter (fun f => inTest || isTestFileName f.1)).map
        (fun f => (([] : List String), f.1, f.2))
      let cs0 := (here.filter (fun f => !(inTest || isTestFileName f.1))).map
        (fun f => (([] : List String), f.1, f.2))
      let d := testCovWalkD inTest ds
      (ts0 ++ d.1, cs0 ++ d.2)

def testCovWalkD (inTest : Bool) :
    List (String × FileTree) → List TCFile × List TCFile
  | [] => ([], [])
  | (dn, t) :: rest =>
      let w := testCovWalk (inTest || testDirs.contains dn) t
      let r := testCovWalkD inTest rest
      (w.1.map (pushDir dn) ++ r.1, w.2.map (pushDir dn) ++ r.2)

end

mutual

/-- Reference population: every file of the tree carrying one of the
analyzer's extensions, at any depth, with no directory exclusion applied
— the population the classifying walk is compared against. -/
def allCovFiles : FileTree → List TCFile
  | .node fs ds =>
      (fs.filter (fun f => isCovExtName f.1)).map
        (fun f => (([] : List String), f.1, f.2)) ++ allCovFilesD ds

def allCovFilesD : List (String × FileTree) → List TCFile
  | [] => []
  | (dn, t) :: rest => (allCovFiles t).map (pushDir dn) ++ allCovFilesD rest

end

def testFrameworks : List (String × String) :=
  [("pytest", "import\\s+pytest"),
   ("jest", "import\\s+.*\\s+from\\s+[\x27\"]@testing-library"),
   ("mocha", "(describe|it)\\s*\\("),
   ("junit", "import\\s+.*\\s+from\\s+[\x27\"]junit"),
   ("unittest", "import\\s+unittest"),
   ("rspec", "RSpec\\."),
   ("go_test", "func\\s+Test\\w+\\(")]

def coverageFiles : List String :=
  [".coveragerc", "coverage.xml", "coverage.json", "jest.config.js",
   "cypress.json", "codecov.yml", ".nycrc"]

/-- The result dictionary of `check_test_coverage`. -/
structure TestCoverage where
  has_tests : Bool
  test_files : Nat
  test_to_code_ratio : ℚ
  test_lines : Nat
  test_frameworks : List String
  has_coverage_config : Bool

/-- Implements `check_test_coverage`, with `re.search` for the framework-detection
patterns abstracted as `search`.  Framework names are reported in catalog
order (the source materialises a `set`). -/
def checkTestCoverage (search : String → String → Bool) (t : FileTree) :
    TestCoverage :=
  let ts := (testCovWalk false t).1
  let cs := (testCovWalk false t).2
  { has_tests := decide (0 < ts.length)
  , test_files := ts.length
  , test_to_code_ratio :=
      if 0 < cs.length then (ts.length : ℚ) / cs.length else 0
  , test_lines := (ts.map (fun x =>
      match x.2.2 with
      | some c => (pyLines c.toList).length
      | none => 0)).sum
  , test_frameworks := (testFrameworks.filter (fun fw =>
      ts.any (fun x =>
        match x.2.2 with
        | some c => search fw.2 c
        | none => false))).map Prod.fst
  , has_coverage_config := coverageFiles.any (fun f =>
      t.files.any (fun e => e.1 == f) || t.dirs.any (fun e => e.1 == f)) }

theorem perm_append_swap {α : Type} (a b c d : List α) :
    ((a ++ b) ++ (c ++ d)).Perm ((a ++ c) ++ (b ++ d)) := by
  have h1 : (a ++ b) ++ (c ++ d) = a ++ ((b ++ c) ++ d) := by
    simp [List.append_assoc]
  have h2 : (a ++ c) ++ (b ++ d) = a ++ ((c ++ b) ++ d) := by
    simp [List.append_assoc]
  rw [h1, h2]
  exact List.Perm.append_left a
    (List.Perm.append_right d List.perm_append_comm)

mutual

theorem testCovWalk_perm (inTest : Bool) (t : FileTree) :
    ((testCovWalk inTest t).1 ++ (testCovWalk inTest t).2).Perm
      (allCovFiles t) := by
  match t with
  | .node fs ds =>
    have hD := testCovWalkD_perm inTest ds
    have hfilter :=
      List.filter_append_perm (fun f => inTest || isTestFileName f.1)
        (fs.filter (fun f => isCovExtName f.1))
    have hmap := hfilter.map
      (fun f : String × Option String => (([] : List String), f.1, f.2))
    rw [testCovWalk, allCovFiles]
    refine (perm_append_swap _ _ _ _).trans ?_
    rw [← List.map_append]
    exact List.Perm.append hmap hD

theorem testCovWalkD_perm (inTest : Bool) (ds : List (String × FileTree)) :
    ((testCovWalkD inTest ds).1 ++ (testCovWalkD inTest ds).2).Perm
      (allCovFilesD ds) := by
  match ds with
  | [] => simp [testCovWalkD, allCovFilesD]
  | (dn, t) :: rest =>
    have hW := testCovWalk_perm (inTest || testDirs.contains dn) t
    have hR := testCovWalkD_perm inTest rest
    rw [testCovWalkD, allCovFilesD]
    refine (perm_append_swap _ _ _ _).trans ?_
    rw [← List.map_append]
    exact List.Perm.append (hW.map (pushDir dn)) hR

end

/-- A tree whose only source file sits under `node_modules`: the File
Classifier prunes it, the Test Coverage Analyzer still counts it. -/
def exTree : FileTree :=
  .node [] [("node_modules", .node [("a.py", some "x")] [])]

/-- C10: `check_test_coverage` walks the whole tree without the File
Classifier's exclude-list.  The test and code buckets together are
exactly the unpruned extension-matching population — every such file,
also one under `node_modules`, `.git`, `vendor` or `build`, is classified
into exactly one bucket and enters `test_files` and the numerator or the
denominator of `test_to_code_ratio` — so its file population can differ
from `get_code_files`: on a tree whose only source file lies under
`node_modules`, `get_code_files` returns nothing while
`check_test_coverage` counts that file as code. -/
theorem test_coverage_walks_excluded_dirs (search : String → String → Bool)
    (t : FileTree) (hcs : 0 < (testCovWalk false t).2.length) :
    ((testCovWalk false t).1 ++ (testCovWalk false t).2).Perm (allCovFiles t)
    ∧ (∀ x ∈ allCovFiles t,
        x ∈ (testCovWalk false t).1 ∨ x ∈ (testCovWalk false t).2)
    ∧ (checkTestCoverage search t).test_files = (testCovWalk false t).1.length
    ∧ (checkTestCoverage search t).test_to_code_ratio
        = ((testCovWalk false t).1.length : ℚ) / (testCovWalk false t).2.length
    ∧ getCodeFiles exTree = []
    ∧ (testCovWalk false exTree).2 = [(["node_modules"], "a.py", some "x")] := by
  have hperm := testCovWalk_perm false t
  refine ⟨hperm, ?_, rfl, ?_, ?_, ?_⟩
  · intro x hx
    exact List.mem_append.mp (hperm.symm.subset hx)
  · simp only [checkTestCoverage, if_pos hcs]
  · simp +decide [getCodeFiles, getCodeFilesD, exTree, isCodeFileName,
      strEndsWith, excludeDirs, codeExtensions]
  · simp +decide [testCovWalk, testCovWalkD, exTree, isCovExtName,
      strEndsWith, covExtensions, isTestFileName, testPatterns, testDirs,
      pyReplaceStar, compileTok, regMatch, nlSuffixes, pushDir]

/-- Witness for C10 at the concrete tree (the code bucket is non-empty). -/
theorem test_coverage_walks_excluded_dirs_witness :
    (checkTestCoverage (fun _ _ => false) exTree).test_to_code_ratio
      = ((testCovWalk false exTree).1.length : ℚ)
          / (testCovWalk false exTree).2.length :=
  (test_coverage_walks_excluded_dirs (fun _ _ => false) exTree
    (by simp +decide [testCovWalk, testCovWalkD, exTree, isCovExtName,
      strEndsWith, covExtensions, isTestFileName, testPatterns, testDirs,
      pyReplaceStar, compileTok, regMatch, nlSuffixes, pushDir])).2.2.2.1

/-! ## C2: range of the ratio fields -/

theorem ratioOf_bounds (a b : Nat) (hab : a ≤ b) :
    0 ≤ (if 0 < b then (a : ℚ) / b else 0)
    ∧ (if 0 < b then (a : ℚ) / b else 0) ≤ 1 := by
  split
  · next h =>
      refine ⟨div_nonneg (by positivity) (by positivity), ?_⟩
      rw [div_le_one (by exact_mod_cast h)]
      exact_mod_cast hab
  · norm_num

theorem ratioOf_nonneg (a b : Nat) :
    0 ≤ (if 0 < b then (a : ℚ) / b else 0) := by
  split
  · positivity
  · norm_num

/-- A tree with two files under `tests/` and a single other code file:
`test_to_code_ratio = 2 / 1`. -/
def c2Tree : FileTree :=
  .node [("c.py", some "")]
    [("tests", .node [("t1.py", some ""), ("t2.py", some "")] [])]

/-- C2 counterexample: `test_to_code_ratio` is `len(test_files) /
len(code_files)` and exceeds 1 whenever test files outnumber non-test
files, so not every ratio field lies in [0, 1]. -/
theorem test_to_code_ratio_exceeds_one :
    ¬ (checkTestCoverage (fun _ _ => false) c2Tree).test_to_code_ratio ≤ 1 := by
  have hwalk : testCovWalk false c2Tree
      = ([(["tests"], "t1.py", some ""), (["tests"], "t2.py", some "")],
         [(([] : List String), "c.py", some "")]) := by
    simp +decide [testCovWalk, testCovWalkD, c2Tree, isCovExtName,
      strEndsWith, covExtensions, isTestFileName, testPatterns, testDirs,
      pyReplaceStar, compileTok, regMatch, nlSuffixes, pushDir]
  simp only [checkTestCoverage, hwalk]
  norm_num

/-- C2 (amended): `comment_ratio` always lies in [0, 1];
`commit_message_quality` lies in [0, 1] whenever the parsed log yields at
most `total_commits` (message, files) block pairs (as a consistent `git`
history does); `test_to_code_ratio` is nonnegative but is the quotient of
the test-file count by the non-test-file count and may exceed 1. -/
theorem ratio_fields_in_range (f : String → String → Nat)
    (files : List FInput) (search : String → String → Bool) (t : FileTree)
    (total : Nat) (dates : List Int) (emails logs : List String)
    (hlogs : logs.length ≤ 2 * total) :
    (0 ≤ (analyzeCodePatterns f files).comment_ratio
      ∧ (analyzeCodePatterns f files).comment_ratio ≤ 1)
    ∧ (0 ≤ (analyzeCommitHistory total dates emails logs).commit_message_quality
      ∧ (analyzeCommitHistory total dates emails logs).commit_message_quality ≤ 1)
    ∧ 0 ≤ (checkTestCoverage search t).test_to_code_ratio := by
  refine ⟨?_, ?_, ?_⟩
  · have hle : (List.map (fun c => ((pyLines c.toList).filter isCommentLine).length)
        (files.filterMap FInput.content)).sum
        ≤ (List.map (fun c => (pyLines c.toList).length)
            (files.filterMap FInput.content)).sum :=
      List.sum_le_sum (fun c _ => List.length_filter_le _ _)
    simp only [analyzeCodePatterns]
    exact ratioOf_bounds _ _ hle
  · have hg : goodCount logs ≤ total := by
      have h1 := goodCount_le_half logs
      omega
    simp only [analyzeCommitHistory]
    exact ratioOf_bounds _ _ hg
  · simp only [checkTestCoverage]
    exact ratioOf_nonneg _ _

/-- Witness for C2 (amended) at concrete inputs: one commit whose log has
one (message, files) pair. -/
theorem ratio_fields_in_range_witness :
    0 ≤ (analyzeCommitHistory 1 [0] ["a@b"] ["Fix bug", "test/a.py"]).commit_message_quality
    ∧ (analyzeCommitHistory 1 [0] ["a@b"] ["Fix bug", "test/a.py"]).commit_message_quality ≤ 1 :=
  (ratio_fields_in_range patOracle [] (fun _ _ => false) exTree 1 [0] ["a@b"]
    ["Fix bug", "test/a.py"] (by norm_num)).2.1

/-! ## Dependency Analyzer (`analyze_dependency_graph`) -/

/-- A parsed `package.json`: the keys of its `dependencies` and
`devDependencies` maps. -/
structure PkgJson where
  dependencies : List String
  devDependencies : List String

/-- The result dictionary of `analyze_dependency_graph`.
`outdated_dependencies` is initialised to 0 and never assigned. -/
structure DependencyData where
  total_dependencies : Nat
  direct_dependencies : Nat
  dev_dependencies : Nat
  outdated_dependencies : Nat
  graph_nodes : Nat
  graph_edges : Nat
  avg_degree : ℚ

/-- Distinct edges of the lock-file graph (`networkx` ignores duplicate
directed edges): one edge per `(package, required package)` pair. -/
def lockEdges (l : List (String × List String)) : List (String × String) :=
  (l.flatMap (fun e => e.2.map (fun r => (e.1, r)))).dedup

/-- Distinct nodes of the lock-file graph: every locked package and every
required package (`add_edge` inserts missing endpoints). -/
def lockGraphNodes (l : List (String × List String)) : List String :=
  (l.map Prod.fst ++ l.flatMap Prod.snd).dedup

/-- A `requirements.txt` line that counts as a dependency:
`line.strip() and not line.startswith('#')` (note the `startswith` is on
the unstripped line). -/
def validReqLines (lines : List String) : List String :=
  lines.filter (fun li =>
    !(pyStrip li.toList).isEmpty && !("#".toList.isPrefixOf li.toList))

/-- Implements `analyze_dependency_graph`, as a function of the parsed manifest
files: `pkg` is the parsed `package.json` (`none` if absent or
malformed), `lock` the `dependencies` map of a parsed
`package-lock.json` (examined only when `package.json` is present),
`reqs` the lines of `requirements.txt`.  The two manifest branches run in
sequence — not `elif` — so a present `requirements.txt` overwrites
`direct_dependencies` and `total_dependencies` last. -/
def analyzeDependencyGraph (pkg : Option PkgJson)
    (lock : Option (List (String × List String)))
    (reqs : Option (List String)) : DependencyData :=
  let d0 : DependencyData := ⟨0, 0, 0, 0, 0, 0, 0⟩
  let d1 :=
    match pkg with
    | none => d0
    | some p =>
        let base := { d0 with
          direct_dependencies := p.dependencies.length
          , dev_dependencies := p.devDependencies.length
          , total_dependencies :=
              p.dependencies.length + p.devDependencies.length }
        match lock with
        | none => base
        | some l =>
            let edges := (lockEdges l).length
            let gnodes := (lockGraphNodes l).length
            { base with
              graph_nodes := l.length
              , graph_edges := edges
              , avg_degree := if 0 < gnodes then (edges : ℚ) / gnodes else 0 }
  match reqs with
  | none => d1
  | some lines =>
      let direct := (validReqLines lines).length
      { d1 with direct_dependencies := direct, total_dependencies := direct }

def pkgEx : PkgJson := ⟨["a"], ["b", "c"]⟩

/-- C5 counterexample: with both `package.json` (1 dependency, 2 dev
dependencies) and `requirements.txt` (2 lines) present, the returned
counts follow neither single convention — `requirements.txt` overwrites
`direct`/`total` while `dev_dependencies` still comes from
`package.json`. -/
theorem dependency_both_manifests_counterexample :
    (analyzeDependencyGraph (some pkgEx) none (some ["liba", "libb"])).direct_dependencies = 2
    ∧ pkgEx.dependencies.length = 1
    ∧ (analyzeDependencyGraph (some pkgEx) none (some ["liba", "libb"])).direct_dependencies
        ≠ pkgEx.dependencies.length
    ∧ (analyzeDependencyGraph (some pkgEx) none (some ["liba", "libb"])).total_dependencies
        ≠ pkgEx.dependencies.length + pkgEx.devDependencies.length := by
  refine ⟨?_, rfl, ?_, ?_⟩ <;>
    simp +decide [analyzeDependencyGraph, validReqLines, pkgEx, pyStrip,
      isPySpace]

/-- C5 (amended): the manifest convention found determines the counts,
with `requirements.txt` taking precedence when both are present: with
only the JSON manifest, `direct`/`dev` are the sizes of its two maps and
`total` their sum; whenever the plain-text list is present, `direct` and
`total` are its count of non-empty non-comment lines (and `dev` still
reflects the JSON manifest when that is also present); with neither,
every count is zero. -/
theorem dependency_counts_by_manifest (pkg : Option PkgJson)
    (lock : Option (List (String × List String)))
    (reqs : Option (List String)) :
    (∀ p, pkg = some p → reqs = none →
      (analyzeDependencyGraph pkg lock reqs).direct_dependencies
          = p.dependencies.length
      ∧ (analyzeDependencyGraph pkg lock reqs).dev_dependencies
          = p.devDependencies.length
      ∧ (analyzeDependencyGraph pkg lock reqs).total_dependencies
          = p.dependencies.length + p.devDependencies.length)
    ∧ (∀ lines, reqs = some lines →
      (analyzeDependencyGraph pkg lock reqs).direct_dependencies
          = (validReqLines lines).length
      ∧ (analyzeDependencyGraph pkg lock reqs).total_dependencies
          = (validReqLines lines).length
      ∧ (analyzeDependencyGraph pkg lock reqs).dev_dependencies
          = (match pkg with
             | some p => p.devDependencies.length
             | none => 0))
    ∧ (pkg = none → reqs = none →
      (analyzeDependencyGraph pkg lock reqs).direct_dependencies = 0
      ∧ (analyzeDependencyGraph pkg lock reqs).dev_dependencies = 0
      ∧ (analyzeDependencyGraph pkg lock reqs).total_dependencies = 0) := by
  rcases pkg with _ | p <;> rcases reqs with _ | lines <;>
    rcases lock with _ | l <;>
    simp [analyzeDependencyGraph]

/-- Witness for C5 (amended) with both manifests present. -/
theorem dependency_counts_by_manifest_witness :
    (analyzeDependencyGraph (some pkgEx) none (some ["liba", "libb"])).direct_dependencies
        = (validReqLines ["liba", "libb"]).length
    ∧ (analyzeDependencyGraph (some pkgEx) none (some ["liba", "libb"])).total_dependencies
        = (validReqLines ["liba", "libb"]).length
    ∧ (analyzeDependencyGraph (some pkgEx) none (some ["liba", "libb"])).dev_dependencies
        = (match some pkgEx with
           | some p => p.devDependencies.length
           | none => 0) :=
  (dependency_counts_by_manifest (some pkgEx) none
    (some ["liba", "libb"])).2.1 ["liba", "libb"] rfl

/-! ## Structure Analyzer (`analyze_repo_structure`) -/

/-- Implements `os.path.isfile(os.path.join(repo_dir, p))` for a root-relative
segment path. -/
def isFilePath : FileTree → List String → Bool
  | _, [] => false
  | t, [n] => t.files.any (fun f => f.1 == n)
  | t, d :: rest => t.dirs.any (fun e => e.1 == d && isFilePath e.2 rest)

/-- Implements `os.path.isdir` for a root-relative segment path. -/
def isDirPath : FileTree → List String → Bool
  | _, [] => false
  | t, [n] => t.dirs.any (fun e => e.1 == n)
  | t, d :: rest => t.dirs.any (fun e => e.1 == d && isDirPath e.2 rest)

/-- Implements `os.path.exists`: a file or a directory. -/
def pathExists (t : FileTree) (p : List String) : Bool :=
  isFilePath t p || isDirPath t p

def splitOnChar (sep : Char) : List Char → List (List Char)
  | [] => [[]]
  | c :: rest =>
      if c == sep then [] :: splitOnChar sep rest
      else
        match splitOnChar sep rest with
        | l :: ls => (c :: l) :: ls
        | [] => [[c]]

/-- Split a relative path such as `.github/CONTRIBUTING.md` into its
segments. -/
def pathParts (s : String) : List String :=
  (splitOnChar '/' s.toList).map String.mk

def readmeNames : List String := ["README.md", "README", "readme.md"]

def licenseNames : List String := ["LICENSE", "LICENSE.md", "license.txt"]

def dockerNames : List String :=
  ["Dockerfile", "docker-compose.yml", ".dockerignore"]

def contributionNames : List String :=
  ["CONTRIBUTING.md", "CONTRIBUTE.md", ".github/CONTRIBUTING.md"]

def conductNames : List String :=
  ["CODE_OF_CONDUCT.md", ".github/CODE_OF_CONDUCT.md"]

def securityNames : List String :=
  ["SECURITY.md", ".github/SECURITY.md", "security.md"]

def ciFiles : List String :=
  [".travis.yml", ".github/workflows", "circleci", "jenkinsfile"]

def depManagerFiles : List String :=
  ["package.json", "requirements.txt", "Gemfile", "composer.json"]

def existsAny (t : FileTree) (names : List String) : Bool :=
  names.any (fun n => pathExists t (pathParts n))

mutual

/-- Maximum `os.walk` nesting depth below the repository root. -/
def maxDepth : FileTree → Nat
  | .node _ ds => maxDepthD ds

def maxDepthD : List (String × FileTree) → Nat
  | [] => 0
  | (_, t) :: rest => max (maxDepth t + 1) (maxDepthD rest)

end

/-- The result dictionary of `analyze_repo_structure`: nine presence
flags, the maximum folder depth, the count of dependency-manager files at
the root, and the architecture score. -/
structure RepoStructure where
  has_readme : Bool
  has_license : Bool
  has_gitignore : Bool
  has_ci_config : Bool
  has_dependency_manager : Bool
  has_docker : Bool
  has_contribution_guide : Bool
  has_code_of_conduct : Bool
  has_security_policy : Bool
  folder_depth : Nat
  dependency_count : Nat
  architecture_score : ℚ

/-- Implements `analyze_repo_structure`: flags from file presence, then
`score += 1` per true flag and `architecture_score = score / 9.0`. -/
def analyzeRepoStructure (t : FileTree) : RepoStructure :=
  let has_readme := existsAny t readmeNames
  let has_license := existsAny t licenseNames
  let has_gitignore := pathExists t [".gitignore"]
  let has_docker := existsAny t dockerNames
  let has_contribution_guide := existsAny t contributionNames
  let has_code_of_conduct := existsAny t conductNames
  let has_security_policy := existsAny t securityNames
  let has_ci_config := ciFiles.any (fun f =>
    if isFilePath t (pathParts f) then pathExists t (pathParts f)
    else isDirPath t (pathParts f))
  let has_dependency_manager := existsAny t depManagerFiles
  let score : Nat :=
    (if has_readme then 1 else 0) + (if has_license then 1 else 0)
    + (if has_gitignore then 1 else 0) + (if has_ci_config then 1 else 0)
    + (if has_dependency_manager then 1 else 0) + (if has_docker then 1 else 0)
    + (if has_contribution_guide then 1 else 0)
    + (if has_code_of_conduct then 1 else 0)
    + (if has_security_policy then 1 else 0)
  { has_readme := has_readme
  , has_license := has_license
  , has_gitignore := has_gitignore
  , has_ci_config := has_ci_config
  , has_dependency_manager := has_dependency_manager
  , has_docker := has_docker
  , has_contribution_guide := has_contribution_guide
  , has_code_of_conduct := has_code_of_conduct
  , has_security_policy := has_security_policy
  , folder_depth := maxDepth t
  , dependency_count :=
      ((t.files.map Prod.fst ++ t.dirs.map Prod.fst).filter
        (fun n => depManagerFiles.contains n)).length
  , architecture_score := (score : ℚ) / 9 }

/-- The nine presence flags of a structure record. -/
def structureFlags (s : RepoStructure) : List Bool :=
  [s.has_readme, s.has_license, s.has_gitignore, s.has_ci_config,
   s.has_dependency_manager, s.has_docker, s.has_contribution_guide,
   s.has_code_of_conduct, s.has_security_policy]

/-- The source's `if`-chain sums exactly the number of true flags. -/
theorem score_chain_eq_count (b1 b2 b3 b4 b5 b6 b7 b8 b9 : Bool) :
    ((if b1 then 1 else 0) + (if b2 then 1 else 0)
    + (if b3 then 1 else 0) + (if b4 then 1 else 0)
    + (if b5 then 1 else 0) + (if b6 then 1 else 0)
    + (if b7 then 1 else 0)
    + (if b8 then 1 else 0)
    + (if b9 then 1 else 0) : Nat)
      = [b1, b2, b3, b4, b5, b6, b7, b8, b9].countP id := by
  revert b1 b2 b3 b4 b5 b6 b7 b8 b9
  decide

def emptyRepo : FileTree := .node [] []

def fullRepo : FileTree :=
  .node [("README.md", some ""), ("LICENSE", some ""), (".gitignore", some ""),
    (".travis.yml", some ""), ("package.json", some ""), ("Dockerfile", some ""),
    ("CONTRIBUTING.md", some ""), ("CODE_OF_CONDUCT.md", some ""),
    ("SECURITY.md", some "")] []

/-- C1: for every repository tree, `architecture_score` equals the number
of true presence flags divided by nine; an empty repository (all flags
false) scores 0 and a repository carrying all nine artifacts scores 1. -/
theorem architecture_score_is_flag_fraction (t : FileTree) :
    (analyzeRepoStructure t).architecture_score
        = ((structureFlags (analyzeRepoStructure t)).countP id : ℚ) / 9
    ∧ (analyzeRepoStructure emptyRepo).architecture_score = 0
    ∧ (analyzeRepoStructure fullRepo).architecture_score = 1 := by
  refine ⟨?_, ?_, ?_⟩
  · simp only [analyzeRepoStructure, structureFlags]
    rw [score_chain_eq_count]
  · simp +decide [analyzeRepoStructure, existsAny, pathExists, isFilePath,
      isDirPath, pathParts, splitOnChar, emptyRepo, readmeNames, licenseNames,
      dockerNames, contributionNames, conductNames, securityNames, ciFiles,
      depManagerFiles]
  · have h : (analyzeRepoStructure fullRepo).architecture_score
        = ((9 : Nat) : ℚ) / 9 := by
      simp +decide [analyzeRepoStructure, existsAny, pathExists, isFilePath,
        isDirPath, pathParts, splitOnChar, fullRepo, readmeNames, licenseNames,
        dockerNames, contributionNames, conductNames, securityNames, ciFiles,
        depManagerFiles]
    rw [h]
    norm_num

/-! ## Qualitative Scorer (`derive_gemini_scores`) -/

/-- A Python JSON value, as `json.loads` returns it. -/
inductive JsonValue where
  | nul : JsonValue
  | boolean : Bool → JsonValue
  | num : Int → JsonValue
  | str : String → JsonValue
  | arr : List JsonValue → JsonValue
  | obj : List (String × JsonValue) → JsonValue

/-- Whether a JSON value is a dictionary. -/
def JsonValue.isObj : JsonValue → Bool
  | .obj _ => true
  | _ => false

def maxTotalChars : Nat := 500000

/-- The sample-collection loop of `derive_gemini_scores`: files whose
read raises are skipped (loop continues); a readable file is included
whole — as `f"File: {file}\n{code}\n"` — when its content still fits
under the running character budget, and the loop `break`s at the first
file that does not fit. -/
def collectSamples : List (String × Option String) → Nat → List String
  | [], _ => []
  | (_, none) :: rest, total => collectSamples rest total
  | (path, some code) :: rest, total =>
      if total + code.length < maxTotalChars then
        ("File: " ++ path ++ "\n" ++ code ++ "\n")
          :: collectSamples rest (total + code.length)
      else []

/-- The contents included by the same loop (without the path banners). -/
def includedCodes : List (String × Option String) → Nat → List String
  | [], _ => []
  | (_, none) :: rest, total => includedCodes rest total
  | (_, some code) :: rest, total =>
      if total + code.length < maxTotalChars then
        code :: includedCodes rest (total + code.length)
      else []

/-- The final value of the loop's `total_chars` accumulator. -/
def collectTotal : List (String × Option String) → Nat → Nat
  | [], total => total
  | (_, none) :: rest, total => collectTotal rest total
  | (_, some code) :: rest, total =>
      if total + code.length < maxTotalChars then
        collectTotal rest (total + code.length)
      else total

/-- Computes `aggregated_code = "\n".join(code_samples)`. -/
def aggregatedCode (files : List (String × Option String)) : String :=
  String.intercalate "\n" (collectSamples files 0)

/-- Computes `text.find(brace)` (the opening brace) as an index into the character list. -/
def pyFindChar (c : Char) (cs : List Char) : Int :=
  match cs.findIdx? (· == c) with
  | some i => (i : Int)
  | none => -1

/-- Computes `text.rfind(brace)` (the closing brace) as an index into the character list. -/
def pyRFindChar (c : Char) (cs : List Char) : Int :=
  match cs.reverse.findIdx? (· == c) with
  | some i => ((cs.length - 1 - i : Nat) : Int)
  | none => -1

/-- The fallback extraction `text[json_start:json_end]` with
`json_start = text.find('{')` and `json_end = text.rfind('}') + 1`,
guarded by `json_start >= 0 and json_end > json_start`. -/
def extractBraces (text : String) : Option String :=
  let cs := text.toList
  let js := pyFindChar '\x7b' cs
  let je := pyRFindChar '\x7d' cs + 1
  if 0 ≤ js ∧ js < je then
    some (String.mk ((cs.drop js.toNat).take (je - js).toNat))
  else none

/-- Implements the response handling of `derive_gemini_scores`.  The model call's outcome
is `ok` with the response text or `error` with the exception message;
`parse` is `json.loads`, returning `none` where it would raise.  Every
branch returns a value — nothing propagates. -/
def deriveGeminiScores (parse : String → Option JsonValue)
    (outcome : Except String String) : JsonValue :=
  match outcome with
  | .error e => .obj [("error", .str e)]
  | .ok text =>
      match parse text with
      | some j => j
      | none =>
          match extractBraces text with
          | some sub =>
              match parse sub with
              | some j => j
              | none => .obj [("raw_response", .str text)]
          | none => .obj [("raw_response", .str text)]

/-- Models `json.loads` on the probe input `"3"`: the Python parser returns the
integer 3 (not a dictionary) and does not raise. -/
def parseOnlyThree : String → Option JsonValue :=
  fun s => if s = "3" then some (.num 3) else none

/-- C8 counterexample: a service response of `"3"` parses successfully,
so `gemini_scores` is the integer 3 — `derive_gemini_scores` returns
whatever JSON value parses, not necessarily a dictionary. -/
theorem gemini_returns_non_dict_counterexample :
    (deriveGeminiScores parseOnlyThree (Except.ok "3")).isObj = false := by
  decide

/-- C8 (amended): `derive_gemini_scores` is total and returns, in order:
the message-bearing `{"error": e}` dictionary on a transport/service
exception; the parsed JSON value (of whatever type) when the response
parses; else the parsed value of the first-`{`-to-last-`}` substring when
that parses; else the `{"raw_response": text}` fallback dictionary. -/
theorem gemini_scores_never_raise (parse : String → Option JsonValue) :
    (∀ e, deriveGeminiScores parse (.error e) = .obj [("error", .str e)])
    ∧ (∀ t j, parse t = some j → deriveGeminiScores parse (.ok t) = j)
    ∧ (∀ t, parse t = none →
        (∃ sub, extractBraces t = some sub
          ∧ ((∃ j, parse sub = some j ∧ deriveGeminiScores parse (.ok t) = j)
             ∨ (parse sub = none
                ∧ deriveGeminiScores parse (.ok t)
                    = .obj [("raw_response", .str t)])))
        ∨ (extractBraces t = none
           ∧ deriveGeminiScores parse (.ok t)
               = .obj [("raw_response", .str t)])) := by
  refine ⟨fun e => rfl, ?_, ?_⟩
  · intro t j h
    simp [deriveGeminiScores, h]
  · intro t h
    cases hex : extractBraces t with
    | none =>
        right
        exact ⟨rfl, by simp [deriveGeminiScores, h, hex]⟩
    | some sub =>
        left
        refine ⟨sub, rfl, ?_⟩
        cases hp : parse sub with
        | some j =>
            left
            exact ⟨j, rfl, by simp [deriveGeminiScores, h, hex, hp]⟩
        | none =>
            right
            exact ⟨rfl, by simp [deriveGeminiScores, h, hex, hp]⟩

/-- Witness for C8 (amended): the parsed value is returned as-is. -/
theorem gemini_scores_never_raise_witness :
    deriveGeminiScores parseOnlyThree (Except.ok "3") = JsonValue.num 3 :=
  (gemini_scores_never_raise parseOnlyThree).2.1 "3" (JsonValue.num 3)
    (by rfl)

/-! ## C9: the character budget of the Qualitative Scorer -/

theorem collectTotal_lt : ∀ (files : List (String × Option String))
    (total : Nat), total < maxTotalChars →
    collectTotal files total < maxTotalChars
  | [], total, h => by simpa [collectTotal] using h
  | (p, none) :: rest, total, h => by
      rw [collectTotal]
      exact collectTotal_lt rest total h
  | (p, some code) :: rest, total, h => by
      rw [collectTotal]
      split
      · next hfit => exact collectTotal_lt rest _ hfit
      · exact h

theorem collectTotal_eq_sum : ∀ (files : List (String × Option String))
    (total : Nat), collectTotal files total
      = total + ((includedCodes files total).map String.length).sum
  | [], total => by simp [collectTotal, includedCodes]
  | (p, none) :: rest, total => by
      rw [collectTotal, includedCodes]
      exact collectTotal_eq_sum rest total
  | (p, some code) :: rest, total => by
      rw [collectTotal, includedCodes]
      split
      · next hfit =>
          rw [collectTotal_eq_sum rest (total + code.length)]
          simp
          omega
      · simp

theorem collectSamples_whole : ∀ (files : List (String × Option String))
    (total : Nat) (s : String), s ∈ collectSamples files total →
    ∃ p code, (p, some code) ∈ files
      ∧ s = "File: " ++ p ++ "\n" ++ code ++ "\n"
  | [], _, s, h => by simp [collectSamples] at h
  | (p, none) :: rest, total, s, h => by
      rw [collectSamples] at h
      obtain ⟨q, code, hmem, hs⟩ := collectSamples_whole rest total s h
      exact ⟨q, code, by simp [hmem], hs⟩
  | (p, some code) :: rest, total, s, h => by
      rw [collectSamples] at h
      split at h
      · rcases List.mem_cons.mp h with rfl | h'
        · exact ⟨p, code, by simp, rfl⟩
        · obtain ⟨q, c, hmem, hs⟩ := collectSamples_whole rest _ s h'
          exact ⟨q, c, by simp [hmem], hs⟩
      · simp at h

theorem collectSamples_take : ∀ (files : List (String × Option String))
    (total : Nat), ∃ k, collectSamples files total
      = ((files.filterMap (fun e => e.2.map (fun c => (e.1, c)))).take k).map
          (fun e => "File: " ++ e.1 ++ "\n" ++ e.2 ++ "\n")
  | [], total => ⟨0, by simp [collectSamples]⟩
  | (p, none) :: rest, total => by
      obtain ⟨k, hk⟩ := collectSamples_take rest total
      exact ⟨k, by rw [collectSamples, hk]; simp⟩
  | (p, some code) :: rest, total => by
      by_cases hfit : total + code.length < maxTotalChars
      · obtain ⟨k, hk⟩ := collectSamples_take rest (total + code.length)
        refine ⟨k + 1, ?_⟩
        rw [collectSamples, if_pos hfit, hk]
        simp
      · refine ⟨0, ?_⟩
        rw [collectSamples, if_neg hfit]
        simp

/-- A content one character below the budget. -/
def bigCode : String := String.mk (List.replicate 499999 'a')

/-- C9 counterexample: the loop counts only `len(code)` — not the
`File: <path>\n` banner and the joining newlines — so the assembled
payload itself exceeds the 500000-character budget: one included file of
499999 content characters yields a payload of 500008 characters. -/
theorem payload_exceeds_budget_counterexample :
    maxTotalChars < (aggregatedCode [("a", some bigCode)]).length := by
  have hlen : bigCode.length = 499999 := by
    show (String.mk (List.replicate 499999 'a')).length = 499999
    rw [String.length_mk, List.length_replicate]
  have hfit : 0 + bigCode.length < maxTotalChars := by
    rw [hlen]
    norm_num [maxTotalChars]
  have hcol : collectSamples [("a", some bigCode)] 0
      = ["File: " ++ "a" ++ "\n" ++ bigCode ++ "\n"] := by
    rw [collectSamples, if_pos hfit, collectSamples]
  have hagg : aggregatedCode [("a", some bigCode)]
      = "File: " ++ "a" ++ "\n" ++ bigCode ++ "\n" := by
    rw [aggregatedCode, hcol]
    rfl
  have hf : ("File: " : String).length = 6 := by decide
  have ha : ("a" : String).length = 1 := by decide
  have hn : ("\n" : String).length = 1 := by decide
  rw [hagg, String.length_append, String.length_append, String.length_append,
    String.length_append, hf, ha, hn, hlen]
  norm_num [maxTotalChars]

/-- C9 (amended): the loop's running total — initial value plus the
content lengths of all included files — always stays strictly below the
500000-character budget; every assembled sample is a whole file of the
input prefixed with its path (no per-file truncation); and the included
files are exactly a prefix of the readable files (the loop breaks at the
first file that does not fit, silently omitting the rest).  Only content
characters are counted: the path banners and joining newlines are not,
so the full payload may exceed the budget (see the counterexample). -/
theorem gemini_payload_budget (files : List (String × Option String))
    (total : Nat) (h : total < maxTotalChars) :
    collectTotal files total < maxTotalChars
    ∧ collectTotal files total
        = total + ((includedCodes files total).map String.length).sum
    ∧ (∀ s ∈ collectSamples files total,
        ∃ p code, (p, some code) ∈ files
          ∧ s = "File: " ++ p ++ "\n" ++ code ++ "\n")
    ∧ ∃ k, collectSamples files total
        = ((files.filterMap (fun e => e.2.map (fun c => (e.1, c)))).take k).map
            (fun e => "File: " ++ e.1 ++ "\n" ++ e.2 ++ "\n") :=
  ⟨collectTotal_lt files total h, collectTotal_eq_sum files total,
   fun s hs => collectSamples_whole files total s hs,
   collectSamples_take files total⟩

/-- Witness for C9 (amended) at a concrete input. -/
theorem gemini_payload_budget_witness :
    collectTotal [("a.py", some "xy"), ("b.py", none)] 0 < maxTotalChars :=
  (gemini_payload_budget [("a.py", some "xy"), ("b.py", none)] 0
    (by norm_num [maxTotalChars])).1

end TechSustain
